import Mathlib

/-!
Verification of the iterative constraint-solver core of a 3D rigid-body
physics engine (ball-and-socket joints), shallowly embedded from
`src/systems/SolveBallAndSocketJointSystem.cpp` and the legacy
`src/engine/ConstraintSolver.h`.

Scalars are modelled exactly, over an arbitrary linear ordered field `K`
(instantiated at `ℚ` for executable witnesses and at `ℝ` where a square
root is needed).  Floating-point rounding is outside the model.
-/

set_option linter.unusedSectionVars false

namespace RP3D

variable {K : Type*} [LinearOrderedField K]

/-- Modelled from the spec: 3-component vector (`Vector3` of the math
primitives, which are not part of the provided sources). -/
@[ext] structure Vector3 (K : Type*) where
  x : K
  y : K
  z : K
  deriving DecidableEq

namespace Vector3

def add (a b : Vector3 K) : Vector3 K := ⟨a.x + b.x, a.y + b.y, a.z + b.z⟩

def sub (a b : Vector3 K) : Vector3 K := ⟨a.x - b.x, a.y - b.y, a.z - b.z⟩

def neg (a : Vector3 K) : Vector3 K := ⟨-a.x, -a.y, -a.z⟩

/-- Modelled from the spec: componentwise product (rp3d `Vector3::operator*`
with a vector argument; the `⊙` of the spec). -/
def hadamard (a b : Vector3 K) : Vector3 K := ⟨a.x * b.x, a.y * b.y, a.z * b.z⟩

def smul (c : K) (a : Vector3 K) : Vector3 K := ⟨c * a.x, c * a.y, c * a.z⟩

/-- Modelled from the spec: cross product of two 3-vectors. -/
def cross (a b : Vector3 K) : Vector3 K :=
  ⟨a.y * b.z - a.z * b.y, a.z * b.x - a.x * b.z, a.x * b.y - a.y * b.x⟩

instance : Add (Vector3 K) := ⟨Vector3.add⟩

instance : Sub (Vector3 K) := ⟨Vector3.sub⟩

instance : Neg (Vector3 K) := ⟨Vector3.neg⟩

instance : Mul (Vector3 K) := ⟨Vector3.hadamard⟩

instance : SMul K (Vector3 K) := ⟨Vector3.smul⟩

instance : Zero (Vector3 K) := ⟨⟨0, 0, 0⟩⟩

@[simp] theorem add_def_vec3 (a b : Vector3 K) : a + b = a.add b := rfl

@[simp] theorem sub_def (a b : Vector3 K) : a - b = a.sub b := rfl

@[simp] theorem neg_def (a : Vector3 K) : -a = a.neg := rfl

@[simp] theorem mul_def_vec3 (a b : Vector3 K) : a * b = a.hadamard b := rfl

@[simp] theorem smul_def (c : K) (a : Vector3 K) : c • a = a.smul c := rfl

@[simp] theorem zero_x : (0 : Vector3 K).x = 0 := rfl

@[simp] theorem zero_y : (0 : Vector3 K).y = 0 := rfl

@[simp] theorem zero_z : (0 : Vector3 K).z = 0 := rfl

@[simp] theorem add_x (a b : Vector3 K) : (a.add b).x = a.x + b.x := rfl

@[simp] theorem add_y (a b : Vector3 K) : (a.add b).y = a.y + b.y := rfl

@[simp] theorem add_z (a b : Vector3 K) : (a.add b).z = a.z + b.z := rfl

@[simp] theorem sub_x (a b : Vector3 K) : (a.sub b).x = a.x - b.x := rfl

@[simp] theorem sub_y (a b : Vector3 K) : (a.sub b).y = a.y - b.y := rfl

@[simp] theorem sub_z (a b : Vector3 K) : (a.sub b).z = a.z - b.z := rfl

@[simp] theorem neg_x (a : Vector3 K) : a.neg.x = -a.x := rfl

@[simp] theorem neg_y (a : Vector3 K) : a.neg.y = -a.y := rfl

@[simp] theorem neg_z (a : Vector3 K) : a.neg.z = -a.z := rfl

@[simp] theorem hadamard_x (a b : Vector3 K) : (a.hadamard b).x = a.x * b.x := rfl

@[simp] theorem hadamard_y (a b : Vector3 K) : (a.hadamard b).y = a.y * b.y := rfl

@[simp] theorem hadamard_z (a b : Vector3 K) : (a.hadamard b).z = a.z * b.z := rfl

@[simp] theorem smul_x (c : K) (a : Vector3 K) : (a.smul c).x = c * a.x := rfl

@[simp] theorem smul_y (c : K) (a : Vector3 K) : (a.smul c).y = c * a.y := rfl

@[simp] theorem smul_z (c : K) (a : Vector3 K) : (a.smul c).z = c * a.z := rfl

@[simp] theorem cross_x (a b : Vector3 K) : (a.cross b).x = a.y * b.z - a.z * b.y := rfl

@[simp] theorem cross_y (a b : Vector3 K) : (a.cross b).y = a.z * b.x - a.x * b.z := rfl

@[simp] theorem cross_z (a b : Vector3 K) : (a.cross b).z = a.x * b.y - a.y * b.x := rfl

/-- Component selector: axis 0 is x, axis 1 is y, any other is z. -/
def nth (v : Vector3 K) (c : Fin 3) : K :=
  if c.val = 0 then v.x else if c.val = 1 then v.y else v.z

theorem nth_add (a b : Vector3 K) (c : Fin 3) : (a + b).nth c = a.nth c + b.nth c := by
  unfold nth; split_ifs <;> rfl

theorem nth_hadamard (a b : Vector3 K) (c : Fin 3) : (a * b).nth c = a.nth c * b.nth c := by
  unfold nth; split_ifs <;> rfl

theorem nth_smul (k : K) (a : Vector3 K) (c : Fin 3) : (k • a).nth c = k * a.nth c := by
  unfold nth; split_ifs <;> rfl

@[simp] theorem add_zero_vec3 (a : Vector3 K) : a.add 0 = a := by ext <;> simp

@[simp] theorem neg_zero_vec3 : (0 : Vector3 K).neg = 0 := by ext <;> simp

@[simp] theorem hadamard_zero_vec3 (a : Vector3 K) : a.hadamard 0 = 0 := by ext <;> simp

@[simp] theorem zero_cross_vec3 (b : Vector3 K) : (0 : Vector3 K).cross b = 0 := by ext <;> simp

end Vector3

/-- Modelled from the spec: 3×3 matrix (`Matrix3x3` of the math primitives,
not part of the provided sources); fields are row-major entries. -/
@[ext] structure Matrix3x3 (K : Type*) where
  xx : K
  xy : K
  xz : K
  yx : K
  yy : K
  yz : K
  zx : K
  zy : K
  zz : K
  deriving DecidableEq

namespace Matrix3x3

def add (a b : Matrix3x3 K) : Matrix3x3 K :=
  ⟨a.xx + b.xx, a.xy + b.xy, a.xz + b.xz,
   a.yx + b.yx, a.yy + b.yy, a.yz + b.yz,
   a.zx + b.zx, a.zy + b.zy, a.zz + b.zz⟩

def mul (a b : Matrix3x3 K) : Matrix3x3 K :=
  ⟨a.xx * b.xx + a.xy * b.yx + a.xz * b.zx,
   a.xx * b.xy + a.xy * b.yy + a.xz * b.zy,
   a.xx * b.xz + a.xy * b.yz + a.xz * b.zz,
   a.yx * b.xx + a.yy * b.yx + a.yz * b.zx,
   a.yx * b.xy + a.yy * b.yy + a.yz * b.zy,
   a.yx * b.xz + a.yy * b.yz + a.yz * b.zz,
   a.zx * b.xx + a.zy * b.yx + a.zz * b.zx,
   a.zx * b.xy + a.zy * b.yy + a.zz * b.zy,
   a.zx * b.xz + a.zy * b.yz + a.zz * b.zz⟩

/-- Matrix-vector product. -/
def mulVec (a : Matrix3x3 K) (v : Vector3 K) : Vector3 K :=
  ⟨a.xx * v.x + a.xy * v.y + a.xz * v.z,
   a.yx * v.x + a.yy * v.y + a.yz * v.z,
   a.zx * v.x + a.zy * v.y + a.zz * v.z⟩

def getTranspose (a : Matrix3x3 K) : Matrix3x3 K :=
  ⟨a.xx, a.yx, a.zx, a.xy, a.yy, a.zy, a.xz, a.yz, a.zz⟩

/-- Modelled from the spec: determinant of a 3×3 matrix by cofactor
expansion along the first row (`Matrix3x3::getDeterminant`). -/
def getDeterminant (a : Matrix3x3 K) : K :=
  a.xx * (a.yy * a.zz - a.zy * a.yz) - a.xy * (a.yx * a.zz - a.zx * a.yz) +
    a.xz * (a.yx * a.zy - a.zx * a.yy)

/-- Modelled from the spec: inverse of a 3×3 matrix from the cofactor form
using a precomputed determinant (`Matrix3x3::getInverse(determinant)`). -/
def getInverse (a : Matrix3x3 K) (determinant : K) : Matrix3x3 K :=
  let invDet := 1 / determinant
  ⟨(a.yy * a.zz - a.zy * a.yz) * invDet, -(a.xy * a.zz - a.zy * a.xz) * invDet,
   (a.xy * a.yz - a.yy * a.xz) * invDet,
   -(a.yx * a.zz - a.zx * a.yz) * invDet, (a.xx * a.zz - a.zx * a.xz) * invDet,
   -(a.xx * a.yz - a.yx * a.xz) * invDet,
   (a.yx * a.zy - a.zx * a.yy) * invDet, -(a.xx * a.zy - a.zx * a.xy) * invDet,
   (a.xx * a.yy - a.yx * a.xy) * invDet⟩

/-- Modelled from the spec: skew-symmetric cross-product matrix
`Û = skew(v)` with `Û · w = v × w`. -/
def computeSkewSymmetricMatrixForCrossProduct (v : Vector3 K) : Matrix3x3 K :=
  ⟨0, -v.z, v.y, v.z, 0, -v.x, -v.y, v.x, 0⟩

/-- Scalar diagonal matrix `diag(d, d, d)`. -/
def diagonal (d : K) : Matrix3x3 K := ⟨d, 0, 0, 0, d, 0, 0, 0, d⟩

instance : Add (Matrix3x3 K) := ⟨Matrix3x3.add⟩

instance : Mul (Matrix3x3 K) := ⟨Matrix3x3.mul⟩

instance : Zero (Matrix3x3 K) := ⟨⟨0, 0, 0, 0, 0, 0, 0, 0, 0⟩⟩

instance : One (Matrix3x3 K) := ⟨⟨1, 0, 0, 0, 1, 0, 0, 0, 1⟩⟩

@[simp] theorem add_def_mat3 (a b : Matrix3x3 K) : a + b = a.add b := rfl

@[simp] theorem mul_def_mat3 (a b : Matrix3x3 K) : a * b = a.mul b := rfl

@[simp] theorem one_xx : (1 : Matrix3x3 K).xx = 1 := rfl

@[simp] theorem one_xy : (1 : Matrix3x3 K).xy = 0 := rfl

@[simp] theorem one_xz : (1 : Matrix3x3 K).xz = 0 := rfl

@[simp] theorem one_yx : (1 : Matrix3x3 K).yx = 0 := rfl

@[simp] theorem one_yy : (1 : Matrix3x3 K).yy = 1 := rfl

@[simp] theorem one_yz : (1 : Matrix3x3 K).yz = 0 := rfl

@[simp] theorem one_zx : (1 : Matrix3x3 K).zx = 0 := rfl

@[simp] theorem one_zy : (1 : Matrix3x3 K).zy = 0 := rfl

@[simp] theorem one_zz : (1 : Matrix3x3 K).zz = 1 := rfl

@[simp] theorem zero_xx : (0 : Matrix3x3 K).xx = 0 := rfl

@[simp] theorem zero_xy : (0 : Matrix3x3 K).xy = 0 := rfl

@[simp] theorem zero_xz : (0 : Matrix3x3 K).xz = 0 := rfl

@[simp] theorem zero_yx : (0 : Matrix3x3 K).yx = 0 := rfl

@[simp] theorem zero_yy : (0 : Matrix3x3 K).yy = 0 := rfl

@[simp] theorem zero_yz : (0 : Matrix3x3 K).yz = 0 := rfl

@[simp] theorem zero_zx : (0 : Matrix3x3 K).zx = 0 := rfl

@[simp] theorem zero_zy : (0 : Matrix3x3 K).zy = 0 := rfl

@[simp] theorem zero_zz : (0 : Matrix3x3 K).zz = 0 := rfl

/-- The zero matrix maps every vector to the zero vector. -/
theorem zero_mulVec (v : Vector3 K) : (0 : Matrix3x3 K).mulVec v = 0 := by
  ext <;> simp [mulVec]

@[simp] theorem mulVec_zero (a : Matrix3x3 K) : a.mulVec 0 = 0 := by
  ext <;> simp [mulVec]

end Matrix3x3

/-- Modelled from the spec: quaternion with imaginary components `x, y, z`
and real component `w` (rp3d `Quaternion`, not part of the provided
sources). -/
@[ext] structure Quaternion (K : Type*) where
  x : K
  y : K
  z : K
  w : K
  deriving DecidableEq

namespace Quaternion

def add (p q : Quaternion K) : Quaternion K := ⟨p.x + q.x, p.y + q.y, p.z + q.z, p.w + q.w⟩

/-- Modelled from the spec: Hamilton product of two quaternions. -/
def mul (p q : Quaternion K) : Quaternion K :=
  ⟨p.w * q.x + q.w * p.x + p.y * q.z - p.z * q.y,
   p.w * q.y + q.w * p.y + p.z * q.x - p.x * q.z,
   p.w * q.z + q.w * p.z + p.x * q.y - p.y * q.x,
   p.w * q.w - p.x * q.x - p.y * q.y - p.z * q.z⟩

/-- Quaternion times scalar (componentwise). -/
def scale (p : Quaternion K) (c : K) : Quaternion K := ⟨p.x * c, p.y * c, p.z * c, p.w * c⟩

/-- rp3d constructor `Quaternion(newW, v)`: real part `newW`, vector part `v`. -/
def fromScalarVector (s : K) (v : Vector3 K) : Quaternion K := ⟨v.x, v.y, v.z, s⟩

def conjugate (p : Quaternion K) : Quaternion K := ⟨-p.x, -p.y, -p.z, p.w⟩

def lengthSquare (p : Quaternion K) : K := p.x * p.x + p.y * p.y + p.z * p.z + p.w * p.w

/-- Modelled from the spec: `Quaternion::normalize` divides every component
by the length; the square root of the squared length is obligated through
the explicit function `sqrtK`. -/
def normalize (sqrtK : K → K) (p : Quaternion K) : Quaternion K :=
  let l := sqrtK p.lengthSquare
  ⟨p.x / l, p.y / l, p.z / l, p.w / l⟩

/-- Modelled from the spec: rotation of a vector by a quaternion,
`q ⊗ (0, v) ⊗ q̄` taking the vector part. -/
def rotateVector (q : Quaternion K) (v : Vector3 K) : Vector3 K :=
  let r := q.mul ((fromScalarVector 0 v).mul q.conjugate)
  ⟨r.x, r.y, r.z⟩

/-- Modelled from the spec: rotation matrix of a (unit) quaternion,
`Quaternion::getMatrix`. -/
def getMatrix (q : Quaternion K) : Matrix3x3 K :=
  ⟨1 - 2 * q.y * q.y - 2 * q.z * q.z, 2 * q.x * q.y - 2 * q.z * q.w,
   2 * q.x * q.z + 2 * q.y * q.w,
   2 * q.x * q.y + 2 * q.z * q.w, 1 - 2 * q.x * q.x - 2 * q.z * q.z,
   2 * q.y * q.z - 2 * q.x * q.w,
   2 * q.x * q.z - 2 * q.y * q.w, 2 * q.y * q.z + 2 * q.x * q.w,
   1 - 2 * q.x * q.x - 2 * q.y * q.y⟩

instance : Add (Quaternion K) := ⟨Quaternion.add⟩

instance : Mul (Quaternion K) := ⟨Quaternion.mul⟩

instance : HMul (Quaternion K) K (Quaternion K) := ⟨Quaternion.scale⟩

@[simp] theorem add_def_quat (p q : Quaternion K) : p + q = p.add q := rfl

@[simp] theorem mul_def_quat (p q : Quaternion K) : p * q = p.mul q := rfl

@[simp] theorem scale_def (p : Quaternion K) (c : K) : p * c = p.scale c := rfl

end Quaternion

/-! ## Data model (§3): component rows, embedded from the sources -/

inductive BodyType where
  | STATIC
  | KINEMATIC
  | DYNAMIC
  deriving DecidableEq

inductive JointsPositionCorrectionTechnique where
  | BAUMGARTE_JOINTS
  | NON_LINEAR_GAUSS_SEIDEL
  deriving DecidableEq

/-- One row of the rigid-body component family (the columns of
`RigidBodyComponents` that the solver reads or writes). -/
@[ext] structure RigidBodyState (K : Type*) where
  bodyType : BodyType
  inverseMass : K
  inverseInertiaTensorLocal : Matrix3x3 K
  inverseInertiaTensorWorld : Matrix3x3 K
  centerOfMassWorld : Vector3 K
  linearLockAxisFactors : Vector3 K
  angularLockAxisFactors : Vector3 K
  constrainedLinearVelocity : Vector3 K
  constrainedAngularVelocity : Vector3 K
  constrainedPosition : Vector3 K
  constrainedOrientation : Quaternion K
  deriving DecidableEq

/-- One row of the transform component family (world pose). -/
@[ext] structure TransformState (K : Type*) where
  position : Vector3 K
  orientation : Quaternion K
  deriving DecidableEq

/-- One enabled row of the ball-and-socket joint component family together
with its base-joint row (body entities resolved to rigid-body row
indices, and the position-correction technique). -/
@[ext] structure BallAndSocketJointState (K : Type*) where
  body1 : Nat
  body2 : Nat
  positionCorrectionTechnique : JointsPositionCorrectionTechnique
  localAnchorPointBody1 : Vector3 K
  localAnchorPointBody2 : Vector3 K
  r1World : Vector3 K
  r2World : Vector3 K
  i1 : Matrix3x3 K
  i2 : Matrix3x3 K
  inverseMassMatrix : Matrix3x3 K
  biasVector : Vector3 K
  impulse : Vector3 K
  deriving DecidableEq

/-- Solver-visible world state: body and transform columns indexed by
rigid-body row, the enabled ball-and-socket joint rows in component-array
order, and the per-step parameters. -/
structure SolverState (K : Type*) where
  bodies : Nat → RigidBodyState K
  transforms : Nat → TransformState K
  joints : List (BallAndSocketJointState K)
  timeStep : K
  isWarmStartingActive : Bool

/-- Baumgarte positional feedback coefficient (source: `BETA = 0.2`). -/
def BETA (K : Type*) [LinearOrderedField K] : K := 1 / 5

/-- Determinant-singularity threshold (source: `MACHINE_EPSILON`,
single-precision machine epsilon). -/
def MACHINE_EPSILON (K : Type*) [LinearOrderedField K] : K := 1 / 8388608

/-- Read-modify-write of a single rigid-body row, leaving the other rows
of the column family unchanged. -/
def updateBody (bodies : Nat → RigidBodyState K) (i : Nat)
    (f : RigidBodyState K → RigidBodyState K) : Nat → RigidBodyState K :=
  fun n => if n = i then f (bodies i) else bodies n

/-! ## Joint pre-solver (`initBeforeSolve`, lines 48-124) -/

/-- Loop body of `SolveBallAndSocketJointSystem::initBeforeSolve` for one
enabled joint row (lines 56-122). -/
def initBeforeSolveJoint (biasFactor : K) (isWarmStartingActive : Bool)
    (bodies : Nat → RigidBodyState K) (transforms : Nat → TransformState K)
    (j : BallAndSocketJointState K) : BallAndSocketJointState K :=
  let b1 := bodies j.body1
  let b2 := bodies j.body2
  let i1 := b1.inverseInertiaTensorWorld
  let i2 := b2.inverseInertiaTensorWorld
  let orientationBody1 := (transforms j.body1).orientation
  let orientationBody2 := (transforms j.body2).orientation
  let r1World := orientationBody1.rotateVector j.localAnchorPointBody1
  let r2World := orientationBody2.rotateVector j.localAnchorPointBody2
  let skewSymmetricMatrixU1 := Matrix3x3.computeSkewSymmetricMatrixForCrossProduct r1World
  let skewSymmetricMatrixU2 := Matrix3x3.computeSkewSymmetricMatrixForCrossProduct r2World
  let inverseMassBodies := b1.inverseMass + b2.inverseMass
  let massMatrix := Matrix3x3.diagonal inverseMassBodies +
    skewSymmetricMatrixU1 * i1 * skewSymmetricMatrixU1.getTranspose +
    skewSymmetricMatrixU2 * i2 * skewSymmetricMatrixU2.getTranspose
  let massMatrixDeterminant := massMatrix.getDeterminant
  let inverseMassMatrix :=
    if |massMatrixDeterminant| > MACHINE_EPSILON K then
      if b1.bodyType = BodyType.DYNAMIC ∨ b2.bodyType = BodyType.DYNAMIC then
        massMatrix.getInverse massMatrixDeterminant
      else (0 : Matrix3x3 K)
    else (0 : Matrix3x3 K)
  let x1 := b1.centerOfMassWorld
  let x2 := b2.centerOfMassWorld
  let biasVector :=
    if j.positionCorrectionTechnique = JointsPositionCorrectionTechnique.BAUMGARTE_JOINTS then
      biasFactor • (x2 + r2World - x1 - r1World)
    else (0 : Vector3 K)
  let impulse := if isWarmStartingActive then j.impulse else (0 : Vector3 K)
  { j with
    i1 := i1, i2 := i2, r1World := r1World, r2World := r2World,
    inverseMassMatrix := inverseMassMatrix, biasVector := biasVector, impulse := impulse }

/-- `SolveBallAndSocketJointSystem::initBeforeSolve`: one pass over all
enabled joint rows.  Body and transform columns are read only. -/
def initBeforeSolve (s : SolverState K) : SolverState K :=
  let biasFactor := BETA K / s.timeStep
  { s with joints :=
      s.joints.map (initBeforeSolveJoint biasFactor s.isWarmStartingActive s.bodies s.transforms) }

/-! ## Warm-starter (`warmstart`, lines 127-169) -/

/-- The impulse application pattern shared by the warm-starter and the
velocity solver: the linear velocity delta is scaled by the body's
inverse mass and masked by its linear lock-axis factors, the angular
velocity delta is masked by its angular lock-axis factors. -/
def applyImpulse (linDelta angDelta : Vector3 K) (b : RigidBodyState K) :
    RigidBodyState K :=
  { b with
    constrainedLinearVelocity := b.constrainedLinearVelocity +
      (b.inverseMass • b.linearLockAxisFactors) * linDelta,
    constrainedAngularVelocity := b.constrainedAngularVelocity +
      b.angularLockAxisFactors * angDelta }

/-- Loop body of `SolveBallAndSocketJointSystem::warmstart` for one
enabled joint row (lines 133-167); body 1 is updated before body 2, as in
the source. -/
def warmstartJoint (bodies : Nat → RigidBodyState K) (j : BallAndSocketJointState K) :
    Nat → RigidBodyState K :=
  let linearImpulseBody1 := -j.impulse
  let angularImpulseBody1 := j.impulse.cross j.r1World
  let bodies1 := updateBody bodies j.body1
    (applyImpulse linearImpulseBody1 (j.i1.mulVec angularImpulseBody1))
  let angularImpulseBody2 := -(j.impulse.cross j.r2World)
  updateBody bodies1 j.body2
    (applyImpulse j.impulse (j.i2.mulVec angularImpulseBody2))

/-- Sequential (Gauss–Seidel order) fold of `warmstartJoint` over the
joint rows. -/
def warmstartLoop (bodies : Nat → RigidBodyState K) :
    List (BallAndSocketJointState K) → Nat → RigidBodyState K
  | [] => bodies
  | j :: rest => warmstartLoop (warmstartJoint bodies j) rest

/-- `SolveBallAndSocketJointSystem::warmstart`. -/
def warmstart (s : SolverState K) : SolverState K :=
  { s with bodies := warmstartLoop s.bodies s.joints }

/-! ## Velocity solver (`solveVelocityConstraint`, lines 172-218) -/

/-- Loop body of `SolveBallAndSocketJointSystem::solveVelocityConstraint`
for one enabled joint row (lines 178-216): returns the updated body
column and the updated joint row. -/
def solveVelocityConstraintJoint (bodies : Nat → RigidBodyState K)
    (j : BallAndSocketJointState K) :
    (Nat → RigidBodyState K) × BallAndSocketJointState K :=
  let b1 := bodies j.body1
  let b2 := bodies j.body2
  let v1 := b1.constrainedLinearVelocity
  let v2 := b2.constrainedLinearVelocity
  let w1 := b1.constrainedAngularVelocity
  let w2 := b2.constrainedAngularVelocity
  let Jv := v2 + w2.cross j.r2World - v1 - w1.cross j.r1World
  let deltaLambda := j.inverseMassMatrix.mulVec (-Jv - j.biasVector)
  let j' := { j with impulse := j.impulse + deltaLambda }
  let linearImpulseBody1 := -deltaLambda
  let angularImpulseBody1 := deltaLambda.cross j.r1World
  let bodies1 := updateBody bodies j.body1
    (applyImpulse linearImpulseBody1 (j.i1.mulVec angularImpulseBody1))
  let angularImpulseBody2 := -(deltaLambda.cross j.r2World)
  let bodies2 := updateBody bodies1 j.body2
    (applyImpulse deltaLambda (j.i2.mulVec angularImpulseBody2))
  (bodies2, j')

/-- Sequential fold of `solveVelocityConstraintJoint` over the joint rows,
returning the updated body column and the rewritten joint rows in order. -/
def solveVelocityLoop : (Nat → RigidBodyState K) → List (BallAndSocketJointState K) →
    (Nat → RigidBodyState K) × List (BallAndSocketJointState K)
  | bodies, [] => (bodies, [])
  | bodies, j :: rest =>
    let step := solveVelocityConstraintJoint bodies j
    let restResult := solveVelocityLoop step.1 rest
    (restResult.1, step.2 :: restResult.2)

/-- `SolveBallAndSocketJointSystem::solveVelocityConstraint`. -/
def solveVelocityConstraint (s : SolverState K) : SolverState K :=
  let r := solveVelocityLoop s.bodies s.joints
  { s with bodies := r.1, joints := r.2 }

/-! ## Position solver (`solvePositionConstraint`, lines 221-320) -/

/-- Modelled from the spec: `RigidBody::computeWorldInertiaTensorInverse`
(not part of the provided sources), the rotation-matrix sandwich
`R · I_local · Rᵀ` of §4.5 step 1. -/
def computeWorldInertiaTensorInverse (orientation : Matrix3x3 K)
    (inverseInertiaTensorLocal : Matrix3x3 K) : Matrix3x3 K :=
  orientation * inverseInertiaTensorLocal * orientation.getTranspose

/-- The pseudo-impulse application of the position solver on one body
(lines 302-305 and 314-317): advance the constrained position by the
pseudo linear velocity, integrate the orientation by the pseudo angular
velocity and normalize. -/
def applyPseudoImpulse (sqrtK : K → K) (v w : Vector3 K) (b : RigidBodyState K) :
    RigidBodyState K :=
  { b with
    constrainedPosition := b.constrainedPosition + v,
    constrainedOrientation := Quaternion.normalize sqrtK
      (b.constrainedOrientation +
        (Quaternion.fromScalarVector 0 w).mul b.constrainedOrientation * (1 / 2 : K)) }

/-- Loop body of `SolveBallAndSocketJointSystem::solvePositionConstraint`
for one enabled joint row (lines 227-318). -/
def solvePositionConstraintJoint (sqrtK : K → K) (bodies : Nat → RigidBodyState K)
    (j : BallAndSocketJointState K) :
    (Nat → RigidBodyState K) × BallAndSocketJointState K :=
  if j.positionCorrectionTechnique ≠ JointsPositionCorrectionTechnique.NON_LINEAR_GAUSS_SEIDEL
  then (bodies, j)
  else
    let b1 := bodies j.body1
    let b2 := bodies j.body2
    let q1 := b1.constrainedOrientation
    let q2 := b2.constrainedOrientation
    let i1 := computeWorldInertiaTensorInverse q1.getMatrix b1.inverseInertiaTensorLocal
    let i2 := computeWorldInertiaTensorInverse q2.getMatrix b2.inverseInertiaTensorLocal
    let r1World := q1.rotateVector j.localAnchorPointBody1
    let r2World := q2.rotateVector j.localAnchorPointBody2
    let skewSymmetricMatrixU1 := Matrix3x3.computeSkewSymmetricMatrixForCrossProduct r1World
    let skewSymmetricMatrixU2 := Matrix3x3.computeSkewSymmetricMatrixForCrossProduct r2World
    let inverseMassBody1 := b1.inverseMass
    let inverseMassBody2 := b2.inverseMass
    let inverseMassBodies := inverseMassBody1 + inverseMassBody2
    let massMatrix := Matrix3x3.diagonal inverseMassBodies +
      skewSymmetricMatrixU1 * i1 * skewSymmetricMatrixU1.getTranspose +
      skewSymmetricMatrixU2 * i2 * skewSymmetricMatrixU2.getTranspose
    let massMatrixDeterminant := massMatrix.getDeterminant
    let jBase := { j with
      i1 := i1, i2 := i2, r1World := r1World, r2World := r2World,
      inverseMassMatrix := (0 : Matrix3x3 K) }
    if |massMatrixDeterminant| > MACHINE_EPSILON K then
      let j' :=
        if b1.bodyType = BodyType.DYNAMIC ∨ b2.bodyType = BodyType.DYNAMIC then
          { jBase with inverseMassMatrix := massMatrix.getInverse massMatrixDeterminant }
        else jBase
      let x1 := b1.constrainedPosition
      let x2 := b2.constrainedPosition
      let constraintError := x2 + r2World - x1 - r1World
      let lambda := j'.inverseMassMatrix.mulVec (-constraintError)
      let linearImpulseBody1 := -lambda
      let angularImpulseBody1 := lambda.cross r1World
      let v1 := (inverseMassBody1 • b1.linearLockAxisFactors) * linearImpulseBody1
      let w1 := b1.angularLockAxisFactors * (j'.i1.mulVec angularImpulseBody1)
      let bodies1 := updateBody bodies j.body1 (applyPseudoImpulse sqrtK v1 w1)
      let angularImpulseBody2 := -(lambda.cross r2World)
      let v2 := (inverseMassBody2 • b2.linearLockAxisFactors) * lambda
      let w2 := b2.angularLockAxisFactors * (j'.i2.mulVec angularImpulseBody2)
      let bodies2 := updateBody bodies1 j.body2 (applyPseudoImpulse sqrtK v2 w2)
      (bodies2, j')
    else (bodies, jBase)

/-- Sequential fold of `solvePositionConstraintJoint` over the joint rows. -/
def solvePositionLoop (sqrtK : K → K) : (Nat → RigidBodyState K) →
    List (BallAndSocketJointState K) →
    (Nat → RigidBodyState K) × List (BallAndSocketJointState K)
  | bodies, [] => (bodies, [])
  | bodies, j :: rest =>
    let step := solvePositionConstraintJoint sqrtK bodies j
    let restResult := solvePositionLoop sqrtK step.1 rest
    (restResult.1, step.2 :: restResult.2)

/-- `SolveBallAndSocketJointSystem::solvePositionConstraint`. -/
def solvePositionConstraint (sqrtK : K → K) (s : SolverState K) : SolverState K :=
  let r := solvePositionLoop sqrtK s.bodies s.joints
  { s with bodies := r.1, joints := r.2 }

/-- `n` repetitions of a solver pass. -/
def iteratePass (f : SolverState K → SolverState K) : Nat → SolverState K → SolverState K
  | 0, s => s
  | n + 1, s => iteratePass f n (f s)

/-! ## Legacy `ConstraintSolver` (`src/engine/ConstraintSolver.h`) -/

namespace Legacy

/-- State of the legacy `ConstraintSolver` relevant to its cleanup and
body queries; bodies are identified by opaque `Nat` handles (modelling
the `Body*` pointers). -/
structure ConstraintSolverData (K : Type*) where
  constraintBodies : List Nat
  bodyNumberMapping : List (Nat × Nat)
  activeConstraints : List Nat
  vconstraint : Nat → K

/-- `ConstraintSolver::isConstrainedBody`: membership in the
`constraintBodies` set. -/
def isConstrainedBody (s : ConstraintSolverData K) (body : Nat) : Bool :=
  s.constraintBodies.contains body

/-- The `bodyNumberMapping[body]` lookup (`std::map::operator[]` reads 0
for an absent key after value-initialization). -/
def bodyNumber (s : ConstraintSolverData K) (body : Nat) : Nat :=
  (s.bodyNumberMapping.lookup body).getD 0

/-- `ConstraintSolver::getConstrainedLinearVelocityOfBody` (components
`6·idx`, `6·idx+1`, `6·idx+2` of `Vconstraint`); its precondition is the
assert `isConstrainedBody(body)`. -/
def getConstrainedLinearVelocityOfBody (s : ConstraintSolverData K) (body : Nat) : Vector3 K :=
  let indexBodyArray := 6 * bodyNumber s body
  ⟨s.vconstraint indexBodyArray, s.vconstraint (indexBodyArray + 1),
   s.vconstraint (indexBodyArray + 2)⟩

/-- `ConstraintSolver::getConstrainedAngularVelocityOfBody` (components
`6·idx+3`, `6·idx+4`, `6·idx+5` of `Vconstraint`); its precondition is
the assert `isConstrainedBody(body)`. -/
def getConstrainedAngularVelocityOfBody (s : ConstraintSolverData K) (body : Nat) : Vector3 K :=
  let indexBodyArray := 6 * bodyNumber s body
  ⟨s.vconstraint (indexBodyArray + 3), s.vconstraint (indexBodyArray + 4),
   s.vconstraint (indexBodyArray + 5)⟩

/-- `ConstraintSolver::cleanup`: clears `bodyNumberMapping`,
`constraintBodies` and `activeConstraints`. -/
def cleanup (s : ConstraintSolverData K) : ConstraintSolverData K :=
  { s with bodyNumberMapping := [], constraintBodies := [], activeConstraints := [] }

end Legacy

/-! ## Theorems -/

/-- Claim C10: after `cleanup()` the legacy solver retains no
constrained-body state: `isConstrainedBody` returns `false` for every
body, hence the assert precondition of both velocity getters fails for
every body. -/
theorem legacy_cleanup_clears_constrained_bodies (s : Legacy.ConstraintSolverData K)
    (body : Nat) :
    Legacy.isConstrainedBody (Legacy.cleanup s) body = false ∧
    ¬ Legacy.isConstrainedBody (Legacy.cleanup s) body = true := by
  refine ⟨rfl, ?_⟩
  intro h
  simp [Legacy.isConstrainedBody, Legacy.cleanup] at h

/-- A read-modify-write with the identity function leaves the column
unchanged. -/
theorem updateBody_id (bodies : Nat → RigidBodyState K) (i : Nat) :
    updateBody bodies i (fun b => b) = bodies := by
  funext n
  unfold updateBody
  split
  · next hn => rw [hn]
  · rfl

/-- Applying a zero linear and zero angular impulse leaves the body
unchanged. -/
theorem applyImpulse_zero :
    applyImpulse (0 : Vector3 K) (0 : Vector3 K) = fun b => b := by
  funext b
  unfold applyImpulse
  ext <;> simp

set_option maxHeartbeats 1600000 in
/-- A 3×3 matrix with nonzero determinant, inverted through the cofactor
form `getInverse`, is a genuine two-sided inverse. -/
theorem Matrix3x3.getInverse_isInverse (m : Matrix3x3 K) (h : m.getDeterminant ≠ 0) :
    m.getInverse m.getDeterminant * m = 1 ∧ m * m.getInverse m.getDeterminant = 1 := by
  obtain ⟨axx, axy, axz, ayx, ayy, ayz, azx, azy, azz⟩ := m
  simp only [Matrix3x3.getDeterminant] at h
  constructor <;>
    · ext <;>
      · simp only [Matrix3x3.mul_def_mat3, Matrix3x3.mul, Matrix3x3.getInverse,
          Matrix3x3.getDeterminant, Matrix3x3.one_xx, Matrix3x3.one_xy, Matrix3x3.one_xz,
          Matrix3x3.one_yx, Matrix3x3.one_yy, Matrix3x3.one_yz, Matrix3x3.one_zx,
          Matrix3x3.one_zy, Matrix3x3.one_zz]
        field_simp
        ring

/-- The singularity threshold is positive. -/
theorem MACHINE_EPSILON_pos : (0 : K) < MACHINE_EPSILON K := by
  unfold MACHINE_EPSILON
  positivity

/-! ### Example fixtures for witnesses -/

/-- A dynamic unit-mass body at rest with identity inertia and identity
orientation. -/
def exampleDynamicBody (K : Type*) [LinearOrderedField K] : RigidBodyState K where
  bodyType := BodyType.DYNAMIC
  inverseMass := 1
  inverseInertiaTensorLocal := 1
  inverseInertiaTensorWorld := 1
  centerOfMassWorld := 0
  linearLockAxisFactors := ⟨1, 1, 1⟩
  angularLockAxisFactors := ⟨1, 1, 1⟩
  constrainedLinearVelocity := 0
  constrainedAngularVelocity := 0
  constrainedPosition := 0
  constrainedOrientation := ⟨0, 0, 0, 1⟩

/-- A static body: zero inverse mass and zero inverse inertia. -/
def exampleStaticBody (K : Type*) [LinearOrderedField K] : RigidBodyState K where
  bodyType := BodyType.STATIC
  inverseMass := 0
  inverseInertiaTensorLocal := 0
  inverseInertiaTensorWorld := 0
  centerOfMassWorld := 0
  linearLockAxisFactors := ⟨1, 1, 1⟩
  angularLockAxisFactors := ⟨1, 1, 1⟩
  constrainedLinearVelocity := 0
  constrainedAngularVelocity := 0
  constrainedPosition := 0
  constrainedOrientation := ⟨0, 0, 0, 1⟩

/-- Rows 0 and 1 are dynamic bodies, every other row is static. -/
def exampleBodies (K : Type*) [LinearOrderedField K] : Nat → RigidBodyState K :=
  fun n => if n = 0 ∨ n = 1 then exampleDynamicBody K else exampleStaticBody K

/-- Rows 0 and 1 are static bodies (for the singular fixtures). -/
def exampleStaticBodies (K : Type*) [LinearOrderedField K] : Nat → RigidBodyState K :=
  fun _ => exampleStaticBody K

/-- Identity transforms at the origin. -/
def exampleTransforms (K : Type*) [LinearOrderedField K] : Nat → TransformState K :=
  fun _ => ⟨0, ⟨0, 0, 0, 1⟩⟩

/-- A joint between body rows 0 and 1 with anchors at the origin, using
non-linear Gauss–Seidel position correction. -/
def exampleJoint (K : Type*) [LinearOrderedField K] : BallAndSocketJointState K where
  body1 := 0
  body2 := 1
  positionCorrectionTechnique := JointsPositionCorrectionTechnique.NON_LINEAR_GAUSS_SEIDEL
  localAnchorPointBody1 := 0
  localAnchorPointBody2 := 0
  r1World := 0
  r2World := 0
  i1 := 1
  i2 := 1
  inverseMassMatrix := 0
  biasVector := 0
  impulse := 0

/-! ### Claims about the joint pre-solver -/

/-- Claim C1, statement: after the pre-solver loop body, the joint's
`inverseMassMatrix` is the true (two-sided) inverse of the effective-mass
matrix `K = diag(m1⁻¹ + m2⁻¹) + Û1·I1·Û1ᵀ + Û2·I2·Û2ᵀ` exactly when
`|det K|` exceeds `MACHINE_EPSILON` and at least one body is `DYNAMIC`,
and is the zero matrix in every other case. -/
def inverseMassMatrixClaim (biasFactor : K) (isWarmStartingActive : Bool)
    (bodies : Nat → RigidBodyState K) (transforms : Nat → TransformState K)
    (j : BallAndSocketJointState K) : Prop :=
  let j' := initBeforeSolveJoint biasFactor isWarmStartingActive bodies transforms j
  let u1 := Matrix3x3.computeSkewSymmetricMatrixForCrossProduct j'.r1World
  let u2 := Matrix3x3.computeSkewSymmetricMatrixForCrossProduct j'.r2World
  let effectiveK := Matrix3x3.diagonal
      ((bodies j.body1).inverseMass + (bodies j.body2).inverseMass) +
    u1 * j'.i1 * u1.getTranspose + u2 * j'.i2 * u2.getTranspose
  ((|effectiveK.getDeterminant| > MACHINE_EPSILON K ∧
      ((bodies j.body1).bodyType = BodyType.DYNAMIC ∨
        (bodies j.body2).bodyType = BodyType.DYNAMIC)) →
    j'.inverseMassMatrix * effectiveK = 1 ∧ effectiveK * j'.inverseMassMatrix = 1) ∧
  (¬(|effectiveK.getDeterminant| > MACHINE_EPSILON K ∧
      ((bodies j.body1).bodyType = BodyType.DYNAMIC ∨
        (bodies j.body2).bodyType = BodyType.DYNAMIC)) →
    j'.inverseMassMatrix = 0)

/-- Claim C1: `initBeforeSolve` stores `K⁻¹` exactly under the
non-singular, at-least-one-dynamic guard, and the zero matrix otherwise. -/
theorem initBeforeSolveJoint_inverseMassMatrix (biasFactor : K) (isWarmStartingActive : Bool)
    (bodies : Nat → RigidBodyState K) (transforms : Nat → TransformState K)
    (j : BallAndSocketJointState K) :
    inverseMassMatrixClaim biasFactor isWarmStartingActive bodies transforms j := by
  unfold inverseMassMatrixClaim initBeforeSolveJoint
  dsimp only
  constructor
  · rintro ⟨hdet, hdyn⟩
    rw [if_pos hdet, if_pos hdyn]
    exact Matrix3x3.getInverse_isInverse _
      (abs_pos.mp (lt_trans MACHINE_EPSILON_pos hdet))
  · intro hn
    by_cases h1 : |(Matrix3x3.diagonal
        ((bodies j.body1).inverseMass + (bodies j.body2).inverseMass) +
      Matrix3x3.computeSkewSymmetricMatrixForCrossProduct
          (((transforms j.body1).orientation).rotateVector j.localAnchorPointBody1) *
        (bodies j.body1).inverseInertiaTensorWorld *
        (Matrix3x3.computeSkewSymmetricMatrixForCrossProduct
          (((transforms j.body1).orientation).rotateVector j.localAnchorPointBody1)).getTranspose +
      Matrix3x3.computeSkewSymmetricMatrixForCrossProduct
          (((transforms j.body2).orientation).rotateVector j.localAnchorPointBody2) *
        (bodies j.body2).inverseInertiaTensorWorld *
        (Matrix3x3.computeSkewSymmetricMatrixForCrossProduct
          (((transforms j.body2).orientation).rotateVector j.localAnchorPointBody2)).getTranspose).getDeterminant|
        > MACHINE_EPSILON K
    · by_cases h2 : (bodies j.body1).bodyType = BodyType.DYNAMIC ∨
        (bodies j.body2).bodyType = BodyType.DYNAMIC
      · exact absurd ⟨h1, h2⟩ hn
      · rw [if_pos h1, if_neg h2]
    · rw [if_neg h1]

set_option maxHeartbeats 4000000 in
/-- Witness for claim C1: the example two-dynamic-body joint satisfies the
guard and receives a genuine inverse. -/
theorem initBeforeSolveJoint_inverseMassMatrix_witness :
    (let j' := initBeforeSolveJoint (1 : ℚ) true (exampleBodies ℚ) (exampleTransforms ℚ)
      (exampleJoint ℚ)
     let u1 := Matrix3x3.computeSkewSymmetricMatrixForCrossProduct j'.r1World
     let u2 := Matrix3x3.computeSkewSymmetricMatrixForCrossProduct j'.r2World
     let effectiveK := Matrix3x3.diagonal
         ((exampleBodies ℚ (exampleJoint ℚ).body1).inverseMass +
           (exampleBodies ℚ (exampleJoint ℚ).body2).inverseMass) +
       u1 * j'.i1 * u1.getTranspose + u2 * j'.i2 * u2.getTranspose
     j'.inverseMassMatrix * effectiveK = 1 ∧ effectiveK * j'.inverseMassMatrix = 1) :=
  (initBeforeSolveJoint_inverseMassMatrix (1 : ℚ) true (exampleBodies ℚ) (exampleTransforms ℚ)
    (exampleJoint ℚ)).1 (by
      constructor
      · norm_num [exampleBodies, exampleDynamicBody, exampleJoint, exampleTransforms,
          initBeforeSolveJoint, Quaternion.rotateVector, Quaternion.mul, Quaternion.conjugate,
          Quaternion.fromScalarVector, Matrix3x3.computeSkewSymmetricMatrixForCrossProduct,
          Matrix3x3.diagonal, Matrix3x3.getDeterminant, Matrix3x3.getTranspose, Matrix3x3.mul,
          Matrix3x3.add, MACHINE_EPSILON]
      · left
        norm_num [exampleBodies, exampleDynamicBody, exampleJoint])

/-- Claim C3 (single-joint form): a zero inverse-mass matrix makes the
velocity-solver loop body the identity on both the body column and the
joint row — the impulse increment is zero, so the row is inert. -/
theorem solveVelocityConstraintJoint_inert (bodies : Nat → RigidBodyState K)
    (j : BallAndSocketJointState K) (h : j.inverseMassMatrix = 0) :
    solveVelocityConstraintJoint bodies j = (bodies, j) := by
  unfold solveVelocityConstraintJoint
  rw [h]
  simp only [Matrix3x3.zero_mulVec, Vector3.neg_def, Vector3.add_def_vec3, Vector3.neg_zero_vec3,
    Vector3.zero_cross_vec3, Matrix3x3.mulVec_zero, applyImpulse_zero, updateBody_id,
    Vector3.add_zero_vec3]
  rw [← h]

/-- Witness for claim C3: the example joint starts with a zero inverse
mass matrix, and the velocity-solver loop body is the identity there. -/
theorem solveVelocityConstraintJoint_inert_witness :
    solveVelocityConstraintJoint (exampleBodies ℚ) (exampleJoint ℚ) =
      (exampleBodies ℚ, exampleJoint ℚ) :=
  solveVelocityConstraintJoint_inert (exampleBodies ℚ) (exampleJoint ℚ) rfl

/-- Claim C2, statement: one velocity-solver step on a joint computes
`Jv = v2 + w2 × r2World − v1 − w1 × r1World`, the increment
`Δλ = inverseMassMatrix · (−Jv − biasVector)`, accumulates it into the
impulse with no clamping, applies `−Δλ` (linear) and `Δλ × r1World`
(angular, through `I1`) to body 1 and `+Δλ` (linear) and `−Δλ × r2World`
(angular, through `I2`) to body 2 — the linear part scaled by the body's
inverse mass, both parts masked by its lock-axis factors — and touches no
other body row. -/
def velocityKernelClaim (bodies : Nat → RigidBodyState K)
    (j : BallAndSocketJointState K) : Prop :=
  let b1 := bodies j.body1
  let b2 := bodies j.body2
  let Jv := b2.constrainedLinearVelocity + b2.constrainedAngularVelocity.cross j.r2World -
    b1.constrainedLinearVelocity - b1.constrainedAngularVelocity.cross j.r1World
  let deltaLambda := j.inverseMassMatrix.mulVec (-Jv - j.biasVector)
  let result := solveVelocityConstraintJoint bodies j
  result.2 = { j with impulse := j.impulse + deltaLambda } ∧
  result.1 j.body1 = { b1 with
    constrainedLinearVelocity := b1.constrainedLinearVelocity +
      (b1.inverseMass • b1.linearLockAxisFactors) * (-deltaLambda),
    constrainedAngularVelocity := b1.constrainedAngularVelocity +
      b1.angularLockAxisFactors * (j.i1.mulVec (deltaLambda.cross j.r1World)) } ∧
  result.1 j.body2 = { b2 with
    constrainedLinearVelocity := b2.constrainedLinearVelocity +
      (b2.inverseMass • b2.linearLockAxisFactors) * deltaLambda,
    constrainedAngularVelocity := b2.constrainedAngularVelocity +
      b2.angularLockAxisFactors * (j.i2.mulVec (-(deltaLambda.cross j.r2World))) } ∧
  ∀ n, n ≠ j.body1 → n ≠ j.body2 → result.1 n = bodies n

/-- Claim C2: the velocity-solver loop body realizes exactly the
specified formulas for a joint between two distinct body rows. -/
theorem solveVelocityConstraintJoint_formulas (bodies : Nat → RigidBodyState K)
    (j : BallAndSocketJointState K) (hne : j.body1 ≠ j.body2) :
    velocityKernelClaim bodies j := by
  unfold velocityKernelClaim solveVelocityConstraintJoint updateBody applyImpulse
  dsimp only
  refine ⟨rfl, ?_, ?_, ?_⟩
  · rw [if_neg hne, if_pos rfl]
  · rw [if_pos rfl, if_neg (Ne.symm hne)]
  · intro n h1 h2
    rw [if_neg h2, if_neg h1]

/-- Witness for claim C2 at the example two-body joint. -/
theorem solveVelocityConstraintJoint_formulas_witness :
    velocityKernelClaim (exampleBodies ℚ) (exampleJoint ℚ) :=
  solveVelocityConstraintJoint_formulas (exampleBodies ℚ) (exampleJoint ℚ) (by decide)

/-- Claim C7, statement: in one velocity-solver step the linear impulse
on body 1 is exactly the negation of the linear impulse on body 2:
`m1·Δv1 = −Δλ`, `m2·Δv2 = +Δλ`, so the total linear momentum change of
the pair cancels exactly. -/
def momentumClaim (bodies : Nat → RigidBodyState K)
    (j : BallAndSocketJointState K) : Prop :=
  let b1 := bodies j.body1
  let b2 := bodies j.body2
  let Jv := b2.constrainedLinearVelocity + b2.constrainedAngularVelocity.cross j.r2World -
    b1.constrainedLinearVelocity - b1.constrainedAngularVelocity.cross j.r1World
  let deltaLambda := j.inverseMassMatrix.mulVec (-Jv - j.biasVector)
  let result := solveVelocityConstraintJoint bodies j
  let deltaV1 := (result.1 j.body1).constrainedLinearVelocity - b1.constrainedLinearVelocity
  let deltaV2 := (result.1 j.body2).constrainedLinearVelocity - b2.constrainedLinearVelocity
  (1 / b1.inverseMass) • deltaV1 = -deltaLambda ∧
  (1 / b2.inverseMass) • deltaV2 = deltaLambda ∧
  (1 / b1.inverseMass) • deltaV1 + (1 / b2.inverseMass) • deltaV2 = 0

/-- Claim C7: with two distinct dynamic bodies and unit lock factors the
anchor impulses are exact opposites and linear momentum change cancels. -/
theorem solveVelocityConstraintJoint_momentum (bodies : Nat → RigidBodyState K)
    (j : BallAndSocketJointState K) (hne : j.body1 ≠ j.body2)
    (hm1 : (bodies j.body1).inverseMass ≠ 0)
    (hm2 : (bodies j.body2).inverseMass ≠ 0)
    (hl1 : (bodies j.body1).linearLockAxisFactors = ⟨1, 1, 1⟩)
    (hl2 : (bodies j.body2).linearLockAxisFactors = ⟨1, 1, 1⟩) :
    momentumClaim bodies j := by
  unfold momentumClaim solveVelocityConstraintJoint updateBody applyImpulse
  dsimp only
  rw [if_neg hne, if_pos rfl, if_pos rfl, if_neg (Ne.symm hne), hl1, hl2]
  refine ⟨?_, ?_, ?_⟩ <;>
    · ext <;>
      · simp
        try field_simp
        try ring

/-- Witness for claim C7 at the example two-dynamic-body joint. -/
theorem solveVelocityConstraintJoint_momentum_witness :
    momentumClaim (exampleBodies ℚ) (exampleJoint ℚ) :=
  solveVelocityConstraintJoint_momentum (exampleBodies ℚ) (exampleJoint ℚ) (by decide)
    (by norm_num [exampleBodies, exampleDynamicBody, exampleJoint])
    (by norm_num [exampleBodies, exampleDynamicBody, exampleJoint])
    (by norm_num [exampleBodies, exampleDynamicBody, exampleJoint])
    (by norm_num [exampleBodies, exampleDynamicBody, exampleJoint])

/-! ### Claim C8: idempotence of the pre-solver -/

/-- The pre-solver loop body is idempotent: all written fields are
functions of inputs it does not modify, and the conditional impulse
reset is idempotent. -/
theorem initBeforeSolveJoint_idem (biasFactor : K) (isWarmStartingActive : Bool)
    (bodies : Nat → RigidBodyState K) (transforms : Nat → TransformState K)
    (j : BallAndSocketJointState K) :
    initBeforeSolveJoint biasFactor isWarmStartingActive bodies transforms
      (initBeforeSolveJoint biasFactor isWarmStartingActive bodies transforms j) =
      initBeforeSolveJoint biasFactor isWarmStartingActive bodies transforms j := by
  unfold initBeforeSolveJoint
  cases isWarmStartingActive <;> simp

/-- Claim C8: running `initBeforeSolve` twice in a row with the same
time step and warm-start flag and no intervening changes yields the same
state as running it once. -/
theorem initBeforeSolve_idem (s : SolverState K) :
    initBeforeSolve (initBeforeSolve s) = initBeforeSolve s := by
  unfold initBeforeSolve
  dsimp only
  rw [List.map_map]
  have hcomp : (initBeforeSolveJoint (BETA K / s.timeStep) s.isWarmStartingActive s.bodies
      s.transforms) ∘ (initBeforeSolveJoint (BETA K / s.timeStep) s.isWarmStartingActive
      s.bodies s.transforms) =
      initBeforeSolveJoint (BETA K / s.timeStep) s.isWarmStartingActive s.bodies s.transforms := by
    funext j
    exact initBeforeSolveJoint_idem _ _ _ _ j
  rw [hcomp]

/-! ### Claim C9: the singular branch of the position solver -/

/-- The world anchor offset of body 1 as recomputed by the position
solver (lines 251-252) from the current constrained orientation. -/
def positionRecomputedR1 (bodies : Nat → RigidBodyState K)
    (j : BallAndSocketJointState K) : Vector3 K :=
  (bodies j.body1).constrainedOrientation.rotateVector j.localAnchorPointBody1

/-- The world anchor offset of body 2 as recomputed by the position
solver (lines 253-254). -/
def positionRecomputedR2 (bodies : Nat → RigidBodyState K)
    (j : BallAndSocketJointState K) : Vector3 K :=
  (bodies j.body2).constrainedOrientation.rotateVector j.localAnchorPointBody2

/-- The world inverse inertia tensor of body 1 as recomputed by the
position solver (lines 244-245). -/
def positionRecomputedI1 (bodies : Nat → RigidBodyState K)
    (j : BallAndSocketJointState K) : Matrix3x3 K :=
  computeWorldInertiaTensorInverse (bodies j.body1).constrainedOrientation.getMatrix
    (bodies j.body1).inverseInertiaTensorLocal

/-- The world inverse inertia tensor of body 2 as recomputed by the
position solver (lines 247-248). -/
def positionRecomputedI2 (bodies : Nat → RigidBodyState K)
    (j : BallAndSocketJointState K) : Matrix3x3 K :=
  computeWorldInertiaTensorInverse (bodies j.body2).constrainedOrientation.getMatrix
    (bodies j.body2).inverseInertiaTensorLocal

/-- The effective-mass matrix rebuilt by the position solver
(lines 268-273). -/
def positionMassMatrix (bodies : Nat → RigidBodyState K)
    (j : BallAndSocketJointState K) : Matrix3x3 K :=
  let u1 := Matrix3x3.computeSkewSymmetricMatrixForCrossProduct (positionRecomputedR1 bodies j)
  let u2 := Matrix3x3.computeSkewSymmetricMatrixForCrossProduct (positionRecomputedR2 bodies j)
  Matrix3x3.diagonal ((bodies j.body1).inverseMass + (bodies j.body2).inverseMass) +
    u1 * positionRecomputedI1 bodies j * u1.getTranspose +
    u2 * positionRecomputedI2 bodies j * u2.getTranspose

/-- Claim C9: for a non-linear-Gauss-Seidel joint whose rebuilt K fails
the determinant guard, the position-solver loop body leaves every body
row untouched (the whole update including normalization is skipped) but
still overwrites the joint caches `I1`, `I2`, `r1World`, `r2World` and
zeroes `inverseMassMatrix` — the singular branch is not atomic on joint
state. -/
theorem solvePositionConstraintJoint_singular (sqrtK : K → K)
    (bodies : Nat → RigidBodyState K) (j : BallAndSocketJointState K)
    (ht : j.positionCorrectionTechnique =
      JointsPositionCorrectionTechnique.NON_LINEAR_GAUSS_SEIDEL)
    (hdet : ¬(|(positionMassMatrix bodies j).getDeterminant| > MACHINE_EPSILON K)) :
    solvePositionConstraintJoint sqrtK bodies j =
      (bodies,
        { j with
          i1 := positionRecomputedI1 bodies j,
          i2 := positionRecomputedI2 bodies j,
          r1World := positionRecomputedR1 bodies j,
          r2World := positionRecomputedR2 bodies j,
          inverseMassMatrix := (0 : Matrix3x3 K) }) := by
  unfold positionMassMatrix positionRecomputedI1 positionRecomputedI2 positionRecomputedR1
    positionRecomputedR2 at hdet
  unfold positionRecomputedI1 positionRecomputedI2 positionRecomputedR1 positionRecomputedR2
  unfold solvePositionConstraintJoint
  rw [if_neg (fun hcon => hcon ht)]
  dsimp only
  rw [if_neg hdet]

/-- Witness for claim C9: a static-static joint (zero masses, zero
inertia) has a singular rebuilt K; the bodies are untouched and the
caches rewritten. -/
theorem solvePositionConstraintJoint_singular_witness :
    solvePositionConstraintJoint (fun x : ℚ => x) (exampleStaticBodies ℚ) (exampleJoint ℚ) =
      (exampleStaticBodies ℚ,
        { exampleJoint ℚ with
          i1 := positionRecomputedI1 (exampleStaticBodies ℚ) (exampleJoint ℚ),
          i2 := positionRecomputedI2 (exampleStaticBodies ℚ) (exampleJoint ℚ),
          r1World := positionRecomputedR1 (exampleStaticBodies ℚ) (exampleJoint ℚ),
          r2World := positionRecomputedR2 (exampleStaticBodies ℚ) (exampleJoint ℚ),
          inverseMassMatrix := (0 : Matrix3x3 ℚ) }) :=
  solvePositionConstraintJoint_singular (fun x : ℚ => x) (exampleStaticBodies ℚ)
    (exampleJoint ℚ) rfl
    (by
      norm_num [positionMassMatrix, positionRecomputedI1, positionRecomputedI2,
        positionRecomputedR1, positionRecomputedR2, exampleStaticBodies, exampleStaticBody,
        exampleJoint, computeWorldInertiaTensorInverse, Quaternion.getMatrix,
        Quaternion.rotateVector, Quaternion.mul, Quaternion.conjugate,
        Quaternion.fromScalarVector, Matrix3x3.computeSkewSymmetricMatrixForCrossProduct,
        Matrix3x3.diagonal, Matrix3x3.getDeterminant, Matrix3x3.getTranspose, Matrix3x3.mul,
        Matrix3x3.add, MACHINE_EPSILON])

/-! ### Lock-axis and velocity frame conditions (claims C4, C5) -/

/-- `bodies'` keeps the lock-axis factors of `bodies` and leaves every
velocity component whose lock factor is 0 unchanged. -/
def preservesLockedAxes (bodies bodies' : Nat → RigidBodyState K) : Prop :=
  ∀ n,
    (bodies' n).linearLockAxisFactors = (bodies n).linearLockAxisFactors ∧
    (bodies' n).angularLockAxisFactors = (bodies n).angularLockAxisFactors ∧
    (∀ c : Fin 3, (bodies n).linearLockAxisFactors.nth c = 0 →
      (bodies' n).constrainedLinearVelocity.nth c =
        (bodies n).constrainedLinearVelocity.nth c) ∧
    (∀ c : Fin 3, (bodies n).angularLockAxisFactors.nth c = 0 →
      (bodies' n).constrainedAngularVelocity.nth c =
        (bodies n).constrainedAngularVelocity.nth c)

theorem preservesLockedAxes_refl (bodies : Nat → RigidBodyState K) :
    preservesLockedAxes bodies bodies :=
  fun _ => ⟨rfl, rfl, fun _ _ => rfl, fun _ _ => rfl⟩

theorem preservesLockedAxes_trans {a b c : Nat → RigidBodyState K}
    (h1 : preservesLockedAxes a b) (h2 : preservesLockedAxes b c) :
    preservesLockedAxes a c := by
  intro n
  obtain ⟨hb1, hb2, hb3, hb4⟩ := h1 n
  obtain ⟨hc1, hc2, hc3, hc4⟩ := h2 n
  refine ⟨hc1.trans hb1, hc2.trans hb2, ?_, ?_⟩
  · intro cc h0
    rw [hc3 cc (by rw [hb1]; exact h0), hb3 cc h0]
  · intro cc h0
    rw [hc4 cc (by rw [hb2]; exact h0), hb4 cc h0]

/-- The lock masking inside `applyImpulse` zeroes the velocity delta on
every locked axis. -/
theorem updateBody_applyImpulse_preservesLockedAxes (bodies : Nat → RigidBodyState K)
    (i : Nat) (d1 d2 : Vector3 K) :
    preservesLockedAxes bodies (updateBody bodies i (applyImpulse d1 d2)) := by
  intro n
  unfold updateBody
  by_cases hn : n = i
  · subst hn
    rw [if_pos rfl]
    unfold applyImpulse
    refine ⟨rfl, rfl, ?_, ?_⟩
    · intro cc h0
      dsimp only
      rw [Vector3.nth_add, Vector3.nth_hadamard, Vector3.nth_smul, h0, mul_zero, zero_mul,
        add_zero]
    · intro cc h0
      dsimp only
      rw [Vector3.nth_add, Vector3.nth_hadamard, h0, zero_mul, add_zero]
  · rw [if_neg hn]
    exact ⟨rfl, rfl, fun _ _ => rfl, fun _ _ => rfl⟩

/-- The position solver's pseudo-impulse application touches neither lock
factors nor velocities. -/
theorem updateBody_applyPseudoImpulse_preservesLockedAxes (sqrtK : K → K)
    (bodies : Nat → RigidBodyState K) (i : Nat) (v w : Vector3 K) :
    preservesLockedAxes bodies (updateBody bodies i (applyPseudoImpulse sqrtK v w)) := by
  intro n
  unfold updateBody
  by_cases hn : n = i
  · subst hn
    rw [if_pos rfl]
    exact ⟨rfl, rfl, fun _ _ => rfl, fun _ _ => rfl⟩
  · rw [if_neg hn]
    exact ⟨rfl, rfl, fun _ _ => rfl, fun _ _ => rfl⟩

theorem warmstartJoint_preservesLockedAxes (bodies : Nat → RigidBodyState K)
    (j : BallAndSocketJointState K) :
    preservesLockedAxes bodies (warmstartJoint bodies j) :=
  preservesLockedAxes_trans (updateBody_applyImpulse_preservesLockedAxes _ _ _ _)
    (updateBody_applyImpulse_preservesLockedAxes _ _ _ _)

theorem solveVelocityConstraintJoint_preservesLockedAxes (bodies : Nat → RigidBodyState K)
    (j : BallAndSocketJointState K) :
    preservesLockedAxes bodies (solveVelocityConstraintJoint bodies j).1 :=
  preservesLockedAxes_trans (updateBody_applyImpulse_preservesLockedAxes _ _ _ _)
    (updateBody_applyImpulse_preservesLockedAxes _ _ _ _)

theorem solvePositionConstraintJoint_preservesLockedAxes (sqrtK : K → K)
    (bodies : Nat → RigidBodyState K) (j : BallAndSocketJointState K) :
    preservesLockedAxes bodies (solvePositionConstraintJoint sqrtK bodies j).1 := by
  unfold solvePositionConstraintJoint
  split
  · exact preservesLockedAxes_refl bodies
  · dsimp only
    split
    · exact preservesLockedAxes_trans
        (updateBody_applyPseudoImpulse_preservesLockedAxes _ _ _ _ _)
        (updateBody_applyPseudoImpulse_preservesLockedAxes _ _ _ _ _)
    · exact preservesLockedAxes_refl bodies

theorem warmstartLoop_preservesLockedAxes (js : List (BallAndSocketJointState K)) :
    ∀ bodies : Nat → RigidBodyState K, preservesLockedAxes bodies (warmstartLoop bodies js) := by
  induction js with
  | nil => exact fun bodies => preservesLockedAxes_refl bodies
  | cons j rest ih =>
    intro bodies
    exact preservesLockedAxes_trans (warmstartJoint_preservesLockedAxes bodies j) (ih _)

theorem solveVelocityLoop_preservesLockedAxes (js : List (BallAndSocketJointState K)) :
    ∀ bodies : Nat → RigidBodyState K,
      preservesLockedAxes bodies (solveVelocityLoop bodies js).1 := by
  induction js with
  | nil => exact fun bodies => preservesLockedAxes_refl bodies
  | cons j rest ih =>
    intro bodies
    exact preservesLockedAxes_trans
      (solveVelocityConstraintJoint_preservesLockedAxes bodies j) (ih _)

theorem solvePositionLoop_preservesLockedAxes (sqrtK : K → K)
    (js : List (BallAndSocketJointState K)) :
    ∀ bodies : Nat → RigidBodyState K,
      preservesLockedAxes bodies (solvePositionLoop sqrtK bodies js).1 := by
  induction js with
  | nil => exact fun bodies => preservesLockedAxes_refl bodies
  | cons j rest ih =>
    intro bodies
    exact preservesLockedAxes_trans
      (solvePositionConstraintJoint_preservesLockedAxes sqrtK bodies j) (ih _)

/-- Claim C4, statement: a velocity component on an axis whose lock
factor is 0 is never modified by the warm-starter, the velocity solver,
or the position solver. -/
def lockedAxesClaim (sqrtK : K → K) (s : SolverState K) : Prop :=
  ∀ (n : Nat) (c : Fin 3),
    ((s.bodies n).linearLockAxisFactors.nth c = 0 →
      ((warmstart s).bodies n).constrainedLinearVelocity.nth c =
          (s.bodies n).constrainedLinearVelocity.nth c ∧
        ((solveVelocityConstraint s).bodies n).constrainedLinearVelocity.nth c =
          (s.bodies n).constrainedLinearVelocity.nth c ∧
        ((solvePositionConstraint sqrtK s).bodies n).constrainedLinearVelocity.nth c =
          (s.bodies n).constrainedLinearVelocity.nth c) ∧
    ((s.bodies n).angularLockAxisFactors.nth c = 0 →
      ((warmstart s).bodies n).constrainedAngularVelocity.nth c =
          (s.bodies n).constrainedAngularVelocity.nth c ∧
        ((solveVelocityConstraint s).bodies n).constrainedAngularVelocity.nth c =
          (s.bodies n).constrainedAngularVelocity.nth c ∧
        ((solvePositionConstraint sqrtK s).bodies n).constrainedAngularVelocity.nth c =
          (s.bodies n).constrainedAngularVelocity.nth c)

/-- Claim C4: locked velocity components survive every solver pass. -/
theorem solver_locked_axes (sqrtK : K → K) (s : SolverState K) :
    lockedAxesClaim sqrtK s := by
  intro n c
  obtain ⟨_, _, hw3, hw4⟩ := warmstartLoop_preservesLockedAxes s.joints s.bodies n
  obtain ⟨_, _, hv3, hv4⟩ := solveVelocityLoop_preservesLockedAxes s.joints s.bodies n
  obtain ⟨_, _, hp3, hp4⟩ := solvePositionLoop_preservesLockedAxes sqrtK s.joints s.bodies n
  exact ⟨fun h0 => ⟨hw3 c h0, hv3 c h0, hp3 c h0⟩,
    fun h0 => ⟨hw4 c h0, hv4 c h0, hp4 c h0⟩⟩

/-- A solver state whose body 0 has its y axis locked both linearly and
angularly. -/
def exampleLockedState (K : Type*) [LinearOrderedField K] : SolverState K where
  bodies := fun _ => { exampleDynamicBody K with
    linearLockAxisFactors := ⟨1, 0, 1⟩, angularLockAxisFactors := ⟨1, 0, 1⟩ }
  transforms := exampleTransforms K
  joints := [exampleJoint K]
  timeStep := 1
  isWarmStartingActive := true

/-- Witness for claim C4: the locked y component of body 0's linear
velocity is untouched by all three passes. -/
theorem solver_locked_axes_witness :
    ((warmstart (exampleLockedState ℚ)).bodies 0).constrainedLinearVelocity.nth 1 =
        ((exampleLockedState ℚ).bodies 0).constrainedLinearVelocity.nth 1 ∧
      ((solveVelocityConstraint (exampleLockedState ℚ)).bodies 0).constrainedLinearVelocity.nth 1 =
        ((exampleLockedState ℚ).bodies 0).constrainedLinearVelocity.nth 1 ∧
      ((solvePositionConstraint (fun x : ℚ => x)
            (exampleLockedState ℚ)).bodies 0).constrainedLinearVelocity.nth 1 =
        ((exampleLockedState ℚ).bodies 0).constrainedLinearVelocity.nth 1 :=
  (solver_locked_axes (fun x : ℚ => x) (exampleLockedState ℚ) 0 1).1
    (by norm_num [exampleLockedState, exampleDynamicBody, Vector3.nth])

/-- `bodies'` has the same constrained velocities as `bodies`. -/
def preservesVelocities (bodies bodies' : Nat → RigidBodyState K) : Prop :=
  ∀ n,
    (bodies' n).constrainedLinearVelocity = (bodies n).constrainedLinearVelocity ∧
    (bodies' n).constrainedAngularVelocity = (bodies n).constrainedAngularVelocity

theorem preservesVelocities_refl (bodies : Nat → RigidBodyState K) :
    preservesVelocities bodies bodies :=
  fun _ => ⟨rfl, rfl⟩

theorem preservesVelocities_trans {a b c : Nat → RigidBodyState K}
    (h1 : preservesVelocities a b) (h2 : preservesVelocities b c) :
    preservesVelocities a c := by
  intro n
  obtain ⟨hb1, hb2⟩ := h1 n
  obtain ⟨hc1, hc2⟩ := h2 n
  exact ⟨hc1.trans hb1, hc2.trans hb2⟩

theorem updateBody_applyPseudoImpulse_preservesVelocities (sqrtK : K → K)
    (bodies : Nat → RigidBodyState K) (i : Nat) (v w : Vector3 K) :
    preservesVelocities bodies (updateBody bodies i (applyPseudoImpulse sqrtK v w)) := by
  intro n
  unfold updateBody
  by_cases hn : n = i
  · subst hn
    rw [if_pos rfl]
    exact ⟨rfl, rfl⟩
  · rw [if_neg hn]
    exact ⟨rfl, rfl⟩

theorem solvePositionConstraintJoint_preservesVelocities (sqrtK : K → K)
    (bodies : Nat → RigidBodyState K) (j : BallAndSocketJointState K) :
    preservesVelocities bodies (solvePositionConstraintJoint sqrtK bodies j).1 := by
  unfold solvePositionConstraintJoint
  split
  · exact preservesVelocities_refl bodies
  · dsimp only
    split
    · exact preservesVelocities_trans
        (updateBody_applyPseudoImpulse_preservesVelocities _ _ _ _ _)
        (updateBody_applyPseudoImpulse_preservesVelocities _ _ _ _ _)
    · exact preservesVelocities_refl bodies

theorem solvePositionLoop_preservesVelocities (sqrtK : K → K)
    (js : List (BallAndSocketJointState K)) :
    ∀ bodies : Nat → RigidBodyState K,
      preservesVelocities bodies (solvePositionLoop sqrtK bodies js).1 := by
  induction js with
  | nil => exact fun bodies => preservesVelocities_refl bodies
  | cons j rest ih =>
    intro bodies
    exact preservesVelocities_trans
      (solvePositionConstraintJoint_preservesVelocities sqrtK bodies j) (ih _)

theorem iterate_solvePositionConstraint_preservesVelocities (sqrtK : K → K) :
    ∀ (m : Nat) (s : SolverState K),
      preservesVelocities s.bodies ((iteratePass (solvePositionConstraint sqrtK) m s).bodies) := by
  intro m
  induction m with
  | zero => exact fun s => preservesVelocities_refl s.bodies
  | succ m ih =>
    intro s
    exact preservesVelocities_trans
      (solvePositionLoop_preservesVelocities sqrtK s.joints s.bodies)
      (ih (solvePositionConstraint sqrtK s))

/-- Claim C5: any number of position-solver iterations leaves every
body's constrained linear and angular velocity buffers exactly as they
were. -/
theorem solvePositionConstraint_preserves_velocities (sqrtK : K → K) (m : Nat)
    (s : SolverState K) (n : Nat) :
    ((iteratePass (solvePositionConstraint sqrtK) m s).bodies n).constrainedLinearVelocity =
        (s.bodies n).constrainedLinearVelocity ∧
      ((iteratePass (solvePositionConstraint sqrtK) m s).bodies n).constrainedAngularVelocity =
        (s.bodies n).constrainedAngularVelocity :=
  iterate_solvePositionConstraint_preservesVelocities sqrtK m s n

/-! ### Claim C6: unit orientations through the position solver -/

/-- Every body's constrained orientation has squared length 1. -/
def unitOrientations (bodies : Nat → RigidBodyState K) : Prop :=
  ∀ n, ((bodies n).constrainedOrientation).lengthSquare = 1

theorem lengthSquare_nonneg_quat (q : Quaternion K) : 0 ≤ q.lengthSquare := by
  unfold Quaternion.lengthSquare
  nlinarith [mul_self_nonneg q.x, mul_self_nonneg q.y, mul_self_nonneg q.z,
    mul_self_nonneg q.w]

/-- Squared length of the first-order orientation update
`q + (0, w) ⊗ q · ½`: the pure quaternion factors out by the four-square
identity. -/
theorem lengthSquare_integrate_quat (q : Quaternion K) (w : Vector3 K) :
    (q + (Quaternion.fromScalarVector 0 w).mul q * (1 / 2 : K)).lengthSquare =
      (1 + (w.x * w.x + w.y * w.y + w.z * w.z) / 4) * q.lengthSquare := by
  simp only [Quaternion.add_def_quat, Quaternion.scale_def, Quaternion.add, Quaternion.mul,
    Quaternion.scale, Quaternion.fromScalarVector, Quaternion.lengthSquare]
  ring

/-- Normalizing a quaternion of nonzero squared length yields a unit
quaternion, given a square-root function that is exact on nonnegatives. -/
theorem normalize_unit_quat (sqrtK : K → K)
    (hsq : ∀ x : K, 0 ≤ x → sqrtK x * sqrtK x = x) (q : Quaternion K)
    (h0 : q.lengthSquare ≠ 0) :
    (q.normalize sqrtK).lengthSquare = 1 := by
  have hl : sqrtK q.lengthSquare * sqrtK q.lengthSquare = q.lengthSquare :=
    hsq _ (lengthSquare_nonneg_quat q)
  have hlne : sqrtK q.lengthSquare ≠ 0 := by
    intro hz
    rw [hz, zero_mul] at hl
    exact h0 hl.symm
  unfold Quaternion.normalize
  dsimp only
  unfold Quaternion.lengthSquare at hl hlne ⊢
  field_simp [hlne]
  linear_combination -hl

/-- The position solver's pseudo-impulse application keeps a unit
orientation unit: the pre-normalization quaternion has squared length
`1 + ‖w‖²/4 > 0`. -/
theorem applyPseudoImpulse_unit (sqrtK : K → K)
    (hsq : ∀ x : K, 0 ≤ x → sqrtK x * sqrtK x = x) (v w : Vector3 K)
    (b : RigidBodyState K) (hb : (b.constrainedOrientation).lengthSquare = 1) :
    ((applyPseudoImpulse sqrtK v w b).constrainedOrientation).lengthSquare = 1 := by
  unfold applyPseudoImpulse
  dsimp only
  apply normalize_unit_quat sqrtK hsq
  rw [lengthSquare_integrate_quat, hb, mul_one]
  have hpos : (0 : K) < 1 + (w.x * w.x + w.y * w.y + w.z * w.z) / 4 := by
    nlinarith [mul_self_nonneg w.x, mul_self_nonneg w.y, mul_self_nonneg w.z]
  exact hpos.ne'

theorem updateBody_applyPseudoImpulse_unit (sqrtK : K → K)
    (hsq : ∀ x : K, 0 ≤ x → sqrtK x * sqrtK x = x)
    (bodies : Nat → RigidBodyState K) (i : Nat) (v w : Vector3 K)
    (hinv : unitOrientations bodies) :
    unitOrientations (updateBody bodies i (applyPseudoImpulse sqrtK v w)) := by
  intro n
  unfold updateBody
  by_cases hn : n = i
  · subst hn
    rw [if_pos rfl]
    exact applyPseudoImpulse_unit sqrtK hsq v w _ (hinv _)
  · rw [if_neg hn]
    exact hinv n

theorem solvePositionConstraintJoint_unit (sqrtK : K → K)
    (hsq : ∀ x : K, 0 ≤ x → sqrtK x * sqrtK x = x)
    (bodies : Nat → RigidBodyState K) (j : BallAndSocketJointState K)
    (hinv : unitOrientations bodies) :
    unitOrientations (solvePositionConstraintJoint sqrtK bodies j).1 := by
  unfold solvePositionConstraintJoint
  split
  · exact hinv
  · dsimp only
    split
    · exact updateBody_applyPseudoImpulse_unit sqrtK hsq _ _ _ _
        (updateBody_applyPseudoImpulse_unit sqrtK hsq _ _ _ _ hinv)
    · exact hinv

theorem solvePositionLoop_unit (sqrtK : K → K)
    (hsq : ∀ x : K, 0 ≤ x → sqrtK x * sqrtK x = x)
    (js : List (BallAndSocketJointState K)) :
    ∀ bodies : Nat → RigidBodyState K, unitOrientations bodies →
      unitOrientations (solvePositionLoop sqrtK bodies js).1 := by
  induction js with
  | nil => exact fun _ hinv => hinv
  | cons j rest ih =>
    intro bodies hinv
    exact ih _ (solvePositionConstraintJoint_unit sqrtK hsq bodies j hinv)

/-- Claim C6: assuming unit orientations on entry, every
`constrainedOrientation` written by the position solver is immediately
normalized, so all orientations remain unit after any number of
position-solver iterations. -/
theorem solvePositionConstraint_unit_orientations (sqrtK : K → K)
    (hsq : ∀ x : K, 0 ≤ x → sqrtK x * sqrtK x = x) :
    ∀ (m : Nat) (s : SolverState K), unitOrientations s.bodies →
      unitOrientations ((iteratePass (solvePositionConstraint sqrtK) m s).bodies) := by
  intro m
  induction m with
  | zero => exact fun _ hinv => hinv
  | succ m ih =>
    intro s hinv
    exact ih (solvePositionConstraint sqrtK s)
      (solvePositionLoop_unit sqrtK hsq s.joints s.bodies hinv)

/-- The example solver state with one joint between rows 0 and 1. -/
def exampleState (K : Type*) [LinearOrderedField K] : SolverState K where
  bodies := exampleBodies K
  transforms := exampleTransforms K
  joints := [exampleJoint K]
  timeStep := 1
  isWarmStartingActive := true

/-- Witness for claim C6 over the reals, with the genuine square root. -/
theorem solvePositionConstraint_unit_orientations_witness :
    unitOrientations ((iteratePass (solvePositionConstraint Real.sqrt) 1
      (exampleState ℝ)).bodies) :=
  solvePositionConstraint_unit_orientations Real.sqrt
    (fun x hx => Real.mul_self_sqrt hx) 1 (exampleState ℝ)
    (by
      intro n
      unfold exampleState exampleBodies exampleDynamicBody exampleStaticBody
        Quaternion.lengthSquare
      dsimp only
      split_ifs <;> norm_num)

end RP3D
